import Mathlib

/-!
# Verification of the HEX territory-capture game server

A shallow embedding of `src/server.js`: an authoritative server for a
real-time territory-capture game on a hexagonal grid, played by two teams
(red and blue).  The JavaScript state (the tile map object keyed by
`"q,r"`, the player object keyed by socket id, the score record, the
ready-queue `Set`, and the `gameActive` flag) is embedded as a Lean
structure; each socket event handler becomes a pure function from the
game state to a new game state together with the list of emitted
broadcasts.  JS objects are embedded as association lists that keep the
coordinates (resp. the socket id) inside the value, exactly as the source
stores `q`, `r` (resp. `id`) inside each tile (player) record; lookups
use `List.find?` on the key fields, mirroring `map["q,r"]` and
`players[socket.id]`.
-/

namespace HexGame

/-- The string constants used for tile owners and player teams in the
source (`'grey'`, `'red'`, `'blue'`, `'spectator'`).  Tile owners range
over the first three; a player's `team` field is `'spectator'` until a
team is assigned. -/
inductive Col where
  | grey | red | blue | spectator
deriving DecidableEq, Repr

/-- Player status strings `'spectating'` / `'playing'`. -/
inductive Status where
  | spectating | playing
deriving DecidableEq, Repr

/-- A tile record `{ q, r, owner, current_clicks }` (server.js line 51). -/
structure Tile where
  q : ℤ
  r : ℤ
  owner : Col
  current_clicks : ℕ
deriving DecidableEq, Repr

/-- A player record `{ id, team, q, r, status }` (server.js line 132). -/
structure Player where
  id : String
  team : Col
  q : ℤ
  r : ℤ
  status : Status
deriving DecidableEq, Repr

/-- `MAP_RADIUS = 12` (server.js line 14). -/
def MAP_RADIUS : ℕ := 12

/-- `MIN_PLAYERS_TO_START = 2` (server.js line 15). -/
def MIN_PLAYERS_TO_START : ℕ := 2

/-- `WIN_SCORE = 250000` (server.js line 16). -/
def WIN_SCORE : ℕ := 250000

/-- `CENTER_BONUS_DIST = 4` (server.js line 18). -/
def CENTER_BONUS_DIST : ℕ := 4

/-- `getDistanceToCenter(q, r) = (|q| + |q+r| + |r|) / 2` (server.js
line 32).  For integer axial coordinates the sum of the three absolute
values is always even, so the JS division by 2 is exact and the result
is a natural number. -/
def getDistanceToCenter (q r : ℤ) : ℕ :=
  (q.natAbs + (q + r).natAbs + r.natAbs) / 2

/-- `getHexNeighbors(q, r)`: the six axial neighbours in the fixed
direction order `[[1,0],[1,-1],[0,-1],[-1,0],[-1,1],[0,1]]` (server.js
lines 34-37).  The source returns the strings `"q,r"`; since the string
rendering of a coordinate pair is injective we embed the keys as the
pairs themselves. -/
def getHexNeighbors (q r : ℤ) : List (ℤ × ℤ) :=
  [(q + 1, r), (q + 1, r - 1), (q, r - 1), (q - 1, r), (q - 1, r + 1), (q, r + 1)]

/-- Hex distance between two axial coordinates,
`(|dq| + |dq+dr| + |dr|) / 2` (the grid-native metric of the spec
glossary). -/
def hexDist (q r q' r' : ℤ) : ℕ :=
  ((q - q').natAbs + ((q + r) - (q' + r')).natAbs + (r - r').natAbs) / 2

/-- The lookup `map["q,r"]` on the tile map, embedded as `find?` on the
coordinate fields stored inside each tile record. -/
def findTile (m : List Tile) (q r : ℤ) : Option Tile :=
  m.find? fun t => t.q == q && t.r == r

/-- The lookup `players[socket.id]`. -/
def findPlayer (ps : List Player) (sid : String) : Option Player :=
  ps.find? fun p => p.id == sid

/-- `map[n] && map[n].owner === p.team` ranged over the six neighbours
(server.js line 166; also the spec's `hasFriendlyNeighbor` query of
§4.1): some neighbour coordinate names an existing tile owned by
`team`. -/
def hasFriendlyNeighbor (m : List Tile) (q r : ℤ) (team : Col) : Bool :=
  (getHexNeighbors q r).any fun c =>
    match findTile m c.1 c.2 with
    | some n => n.owner == team
    | none => false

/-- The capture requirement computed at server.js lines 181-183:
`req = Math.max(5, Math.floor(25 - dist * 1.5))`, then
`req = Math.floor(req * 1.7)` when the tile is enemy-owned
(`owner !== 'grey'`).  With `d` an integer, `25 - 1.5 * d` is computed
exactly by JS floating point and `Math.floor` of it equals the floor
division `(50 - 3 * d) / 2` (Lean's `Int` division is E-division,
which rounds toward minus infinity for the positive divisor 2); for the
base values `5 ≤ base ≤ 25` arising here, `Math.floor(base * 1.7)` in
binary floating point coincides with `(base * 17) / 10`. -/
def captureReq (d : ℕ) (enemy : Bool) : ℤ :=
  let base : ℤ := max 5 ((50 - 3 * (d : ℤ)) / 2)
  if enemy then base * 17 / 10 else base

/-- Broadcasts emitted by the handlers (`io.emit` / `socket.emit`).
Only the data needed by the verified properties is carried. -/
inductive Broadcast where
  | player_count
  | map_update
  | score_update (red blue : ℕ)
  | player_update
  | tile_progress (q r : ℤ) (clicks : ℕ) (required : ℤ)
  | notification (msg : String)
  | team_assigned (sid : String) (team : Col)
  | game_active_sync
  | countdown_go
  | game_over (winner : Col)
  | reset_game
deriving DecidableEq, Repr

/-- The server's mutable module state (server.js lines 24-29):
`players`, `map`, `scores`, `readyQueue`, `gameActive`.  The ready
queue is a JS `Set` iterated in insertion order, embedded as a
duplicate-free list; `pendingCountdown` records that the countdown
interval of `startGameSequence` has been started and has not yet
reached `"GO!"`. -/
structure GameState where
  players : List Player
  map : List Tile
  scoresRed : ℕ
  scoresBlue : ℕ
  readyQueue : List String
  gameActive : Bool
  pendingCountdown : Bool
deriving DecidableEq, Repr

/-! ## Map generation (`initMap`, server.js lines 39-70) -/

/-- The outer loop bounds: `q` from `-MAP_RADIUS` to `MAP_RADIUS`
(server.js line 47), as a list of integers. -/
def qList (R : ℕ) : List ℤ :=
  (List.range (2 * R + 1)).map fun i : ℕ => (i : ℤ) - R

/-- The inner loop bounds: `r` from `max(-R, -q-R)` to `min(R, -q+R)`
(server.js lines 48-50). -/
def rList (R : ℕ) (q : ℤ) : List ℤ :=
  let r1 : ℤ := max (-(R : ℤ)) (-q - R)
  let r2 : ℤ := min (R : ℤ) (-q + R)
  (List.range (r2 - r1 + 1).toNat).map fun i : ℕ => (i : ℤ) + r1

/-- The grid-building double loop (server.js lines 47-53): every tile
starts `{ owner: 'grey', current_clicks: 0 }`. -/
def genTiles (R : ℕ) : List Tile :=
  (qList R).flatMap fun q => (rList R q).map fun r => ⟨q, r, .grey, 0⟩

/-- The in-place assignment `map[key].owner = o`. -/
def setTileOwner (m : List Tile) (q r : ℤ) (o : Col) : List Tile :=
  m.map fun t => if t.q == q && t.r == r then { t with owner := o } else t

/-- The freshly generated map: the grid, then
`map["-R,0"].owner = 'red'` and `map["R,0"].owner = 'blue'`
(server.js lines 55-56).  Written blue-last so that for `R = 0`, where
the two keys coincide, the later write wins as in the source. -/
def initMapTiles (R : ℕ) : List Tile :=
  setTileOwner (setTileOwner (genTiles R) (-(R : ℤ)) 0 .red) (R : ℤ) 0 .blue

/-- A row of the persistent `tiles` table. -/
structure DbRow where
  q : ℤ
  r : ℤ
  owner : Col
  current_clicks : ℕ
deriving DecidableEq, Repr

/-- `if(map[k]) { map[k].owner = t.owner; map[k].current_clicks =
t.current_clicks }` for one loaded row (server.js line 62). -/
def applyDbRow (m : List Tile) (row : DbRow) : List Tile :=
  m.map fun t =>
    if t.q == row.q && t.r == row.r then
      { t with owner := row.owner, current_clicks := row.current_clicks }
    else t

/-- `data.forEach(...)` over the loaded rows (server.js lines 59-63). -/
def applyDb (m : List Tile) (rows : List DbRow) : List Tile :=
  rows.foldl applyDbRow m

/-- `initMap()` (server.js lines 39-70): reset scores to `{red: 0,
blue: 0}`, rebuild the grid with its two bases, then overlay whatever
rows the persistent store returned (an empty store leaves the fresh
map untouched and merely seeds the store).  Result: the tile map and
the two scores. -/
def initMapState (R : ℕ) (rows : List DbRow) : List Tile × ℕ × ℕ :=
  (applyDb (initMapTiles R) rows, 0, 0)

/-! ## Event handlers (server.js lines 130-243) -/

/-- `players[socket.id] = { id, team: 'spectator', q: 0, r: 0, status:
'spectating' }` — JS object assignment replaces an existing binding and
otherwise appends a new one. -/
def upsertPlayer (ps : List Player) (p : Player) : List Player :=
  if ps.any fun x => x.id == p.id then
    ps.map fun x => if x.id == p.id then p else x
  else ps ++ [p]

/-- The `connection` handler (server.js lines 130-139). -/
def handleConnect (s : GameState) (sid : String) : GameState × List Broadcast :=
  ({ s with players := upsertPlayer s.players ⟨sid, .spectator, 0, 0, .spectating⟩ },
   [.player_count, .map_update, .score_update s.scoresRed s.scoresBlue]
     ++ if s.gameActive then [.game_active_sync] else [])

/-- The counting in `assignTeam` (server.js lines 208-210): playing
members of one team. -/
def countTeam (ps : List Player) (c : Col) : ℕ :=
  (ps.filter fun p => p.status == .playing && p.team == c).length

/-- `assignTeam(socketId)` (server.js lines 204-222): guarded on the
player existing; picks `red > blue ? 'blue' : 'red'`, sets the base
start position `(±MAP_RADIUS, 0)` and status `'playing'`. -/
def assignTeam (s : GameState) (sid : String) : GameState × List Broadcast :=
  match findPlayer s.players sid with
  | none => (s, [])
  | some _ =>
    let red := countTeam s.players .red
    let blue := countTeam s.players .blue
    let team : Col := if red > blue then .blue else .red
    let startQ : ℤ := if team = .red then -(MAP_RADIUS : ℤ) else (MAP_RADIUS : ℤ)
    ({ s with players := s.players.map fun pl =>
        if pl.id == sid then { pl with team := team, q := startQ, r := 0, status := .playing }
        else pl },
     [.team_assigned sid team, .player_update])

/-- `readyQueue.add(socket.id)`: JS `Set.add` is a no-op on an element
already present and otherwise appends in insertion order. -/
def addToQueue (q : List String) (sid : String) : List String :=
  if sid ∈ q then q else q ++ [sid]

/-- The synchronous part of `startGameSequence()` (server.js lines
224-230): assign a team to every queued id in order, clear the queue,
and set `gameActive = false` for the countdown; the countdown interval
becomes pending and only its final tick (`handleCountdownGo`) sets
`gameActive = true`. -/
def startGameSequence (s : GameState) : GameState × List Broadcast :=
  let assigned := s.readyQueue.foldl
    (fun (acc : GameState × List Broadcast) id =>
      let next := assignTeam acc.1 id
      (next.1, acc.2 ++ next.2))
    (s, [])
  ({ assigned.1 with readyQueue := [], gameActive := false, pendingCountdown := true },
   assigned.2)

/-- The countdown interval reaching `count = 0` (server.js lines
235-241): emit `"GO!"`, set `gameActive = true`, start the scoring
loop. -/
def handleCountdownGo (s : GameState) : GameState × List Broadcast :=
  if s.pendingCountdown then
    ({ s with pendingCountdown := false, gameActive := true }, [.countdown_go])
  else (s, [])

/-- The `request_join` handler (server.js lines 141-152): add the
sender to the ready queue, then either notify (below threshold, not
active), start the game sequence (threshold reached, not active), or
late-join via `assignTeam` (active). -/
def handleRequestJoin (s : GameState) (sid : String) : GameState × List Broadcast :=
  let s0 := { s with readyQueue := addToQueue s.readyQueue sid }
  if s0.readyQueue.length < MIN_PLAYERS_TO_START ∧ s0.gameActive = false then
    (s0, [.notification "Waiting for opponent..."])
  else if MIN_PLAYERS_TO_START ≤ s0.readyQueue.length ∧ s0.gameActive = false then
    startGameSequence s0
  else if s0.gameActive then
    let next := assignTeam s0 sid
    (next.1, next.2 ++ [.notification "Joining active game!"])
  else (s0, [])

/-- The `move` handler (server.js lines 154-172). -/
def handleMove (s : GameState) (sid : String) (tq tr : ℤ) : GameState × List Broadcast :=
  match findPlayer s.players sid with
  | none => (s, [])
  | some p =>
    if p.status ≠ .playing ∨ s.gameActive = false then (s, [])
    else match findTile s.map tq tr with
      | none => (s, [])
      | some target =>
        if (tq, tr) ∉ getHexNeighbors p.q p.r then (s, [])
        else if hasFriendlyNeighbor s.map tq tr p.team ∨ target.owner = p.team then
          ({ s with players := s.players.map fun pl =>
              if pl.id == sid then { pl with q := tq, r := tr } else pl },
           [.player_update])
        else (s, [])

/-- The `capture_click` handler (server.js lines 174-194).  The source
reads `map[`p.q,p.r`]` without a guard (a missing tile would throw; the
position invariant proved below shows the lookup succeeds in every
reachable state); the `none` branch here leaves the state unchanged. -/
def handleCapture (s : GameState) (sid : String) : GameState × List Broadcast :=
  match findPlayer s.players sid with
  | none => (s, [])
  | some p =>
    if p.status ≠ .playing ∨ s.gameActive = false then (s, [])
    else match findTile s.map p.q p.r with
      | none => (s, [])
      | some tile =>
        if tile.owner = p.team then (s, [])
        else
          let d := getDistanceToCenter tile.q tile.r
          let req := captureReq d (tile.owner != .grey)
          let clicks := tile.current_clicks + 1
          if (clicks : ℤ) ≥ req then
            ({ s with map := s.map.map fun t =>
                if t.q == tile.q && t.r == tile.r then
                  { t with owner := p.team, current_clicks := 0 }
                else t },
             [.map_update])
          else
            ({ s with map := s.map.map fun t =>
                if t.q == tile.q && t.r == tile.r then
                  { t with current_clicks := clicks }
                else t },
             [.tile_progress tile.q tile.r clicks req])

/-- The `disconnect` handler (server.js lines 196-201). -/
def handleDisconnect (s : GameState) (sid : String) : GameState × List Broadcast :=
  ({ s with players := s.players.filter fun p => p.id != sid,
            readyQueue := s.readyQueue.filter fun x => x != sid },
   [.player_update, .player_count])

/-- The per-tile contribution of one scoring tick for one team
(server.js lines 84-94): 1000 points for an owned tile within
`CENTER_BONUS_DIST` of the centre, 500 beyond it, 0 otherwise. -/
def tileGain (t : Tile) (c : Col) : ℕ :=
  if t.owner == c then
    if getDistanceToCenter t.q t.r ≤ CENTER_BONUS_DIST then 1000 else 500
  else 0

/-- One firing of the scoring interval (server.js lines 77-106):
guarded on `gameActive`; accumulates per-team gains over the map, adds
them to the cumulative scores, broadcasts them, and on reaching
`WIN_SCORE` hands off to `endGame` (which clears `gameActive` and
broadcasts the winner, `scores.red >= WIN_SCORE ? 'red' : 'blue'`). -/
def handleScoreTick (s : GameState) : GameState × List Broadcast :=
  if s.gameActive = false then (s, [])
  else
    let redGain := (s.map.map fun t => tileGain t .red).sum
    let blueGain := (s.map.map fun t => tileGain t .blue).sum
    let red := s.scoresRed + redGain
    let blue := s.scoresBlue + blueGain
    let s1 := { s with scoresRed := red, scoresBlue := blue }
    if WIN_SCORE ≤ red ∨ WIN_SCORE ≤ blue then
      let winner : Col := if WIN_SCORE ≤ red then .red else .blue
      ({ s1 with gameActive := false },
       [.score_update red blue, .game_over winner])
    else (s1, [.score_update red blue])

/-- The delayed reset inside `endGame` (server.js lines 121-126): a
fresh `initMap()` against the wiped store, `players = {}`,
`readyQueue.clear()`. -/
def handleReset (s : GameState) : GameState × List Broadcast :=
  ({ s with map := initMapTiles MAP_RADIUS, scoresRed := 0, scoresBlue := 0,
            players := [], readyQueue := [] },
   [.reset_game])

/-! ## The server as a transition system -/

/-- The state right after process start: `initMap()` has run against
whatever rows the persistent store held, no players, no queue, game
not active. -/
def initState (rows : List DbRow) : GameState :=
  { players := [], map := applyDb (initMapTiles MAP_RADIUS) rows,
    scoresRed := 0, scoresBlue := 0, readyQueue := [],
    gameActive := false, pendingCountdown := false }

/-- One serialized event processed by the server: a connection event, a
socket message, a countdown tick reaching `"GO!"`, a scoring tick, or
the delayed reset after game over. -/
inductive Step : GameState → GameState → Prop where
  | connect (s : GameState) (sid : String) : Step s (handleConnect s sid).1
  | request_join (s : GameState) (sid : String) : Step s (handleRequestJoin s sid).1
  | move (s : GameState) (sid : String) (tq tr : ℤ) : Step s (handleMove s sid tq tr).1
  | capture (s : GameState) (sid : String) : Step s (handleCapture s sid).1
  | disconnect (s : GameState) (sid : String) : Step s (handleDisconnect s sid).1
  | tick (s : GameState) : Step s (handleScoreTick s).1
  | countdown (s : GameState) : Step s (handleCountdownGo s).1
  | reset (s : GameState) : Step s (handleReset s).1

/-- A server state reachable from some process start. -/
def Reachable (s : GameState) : Prop :=
  ∃ rows, Relation.ReflTransGen Step (initState rows) s

/-! ## Spec-side capture difficulty formulas (for the refinement claim) -/

/-- The spec's base requirement, written with the spec's real-number
floor: `base = max(5, floor(25 − 1.5·d))`. -/
def specCaptureBase (d : ℕ) : ℤ :=
  max 5 ⌊(25 : ℚ) - 3 / 2 * (d : ℚ)⌋

/-- The spec's enemy-owned requirement: `required = floor(base · 1.7)`. -/
def specCaptureEnemy (d : ℕ) : ℤ :=
  ⌊(specCaptureBase d : ℚ) * (17 / 10)⌋

/-! ## Basic lemmas about the hex geometry and lookups -/

/-- Membership of a coordinate among the six `getHexNeighbors` keys is
exactly hex distance 1. -/
theorem mem_getHexNeighbors_iff (q r tq tr : ℤ) :
    (tq, tr) ∈ getHexNeighbors q r ↔ hexDist q r tq tr = 1 := by
  simp only [getHexNeighbors, hexDist, List.mem_cons, List.mem_singleton,
    List.not_mem_nil, or_false, Prod.mk.injEq]
  constructor
  · rintro (⟨h1, h2⟩ | ⟨h1, h2⟩ | ⟨h1, h2⟩ | ⟨h1, h2⟩ | ⟨h1, h2⟩ | ⟨h1, h2⟩) <;> omega
  · intro h
    omega

/-- A successful `findTile` lookup returns a tile carrying the looked-up
coordinates. -/
theorem findTile_coords {m : List Tile} {q r : ℤ} {t : Tile}
    (h : findTile m q r = some t) : t.q = q ∧ t.r = r := by
  have hp := List.find?_some h
  simp only [Bool.and_eq_true, beq_iff_eq] at hp
  exact hp

/-- `findTile` through a coordinate-preserving tile transformation. -/
theorem findTile_map {m : List Tile} {f : Tile → Tile}
    (hf : ∀ t, (f t).q = t.q ∧ (f t).r = t.r) (q r : ℤ) :
    findTile (m.map f) q r = (findTile m q r).map f := by
  unfold findTile
  rw [List.find?_map]
  have hpred : ((fun t : Tile => t.q == q && t.r == r) ∘ f) =
      fun t : Tile => t.q == q && t.r == r := by
    funext t
    simp [Function.comp, (hf t).1, (hf t).2]
  rw [hpred]

/-- Characterisation of the `hasFriendlyNeighbor` test: some neighbour
coordinate names an existing tile owned by the team. -/
theorem hasFriendlyNeighbor_iff (m : List Tile) (q r : ℤ) (team : Col) :
    hasFriendlyNeighbor m q r team = true ↔
      ∃ c ∈ getHexNeighbors q r, ∃ n, findTile m c.1 c.2 = some n ∧ n.owner = team := by
  unfold hasFriendlyNeighbor
  rw [List.any_eq_true]
  constructor
  · rintro ⟨c, hc, hval⟩
    refine ⟨c, hc, ?_⟩
    cases hfind : findTile m c.1 c.2 with
    | none => rw [hfind] at hval; exact absurd hval (by simp)
    | some n =>
      rw [hfind] at hval
      exact ⟨n, rfl, by simpa using hval⟩
  · rintro ⟨c, hc, n, hn, hown⟩
    exact ⟨c, hc, by rw [hn]; simpa using hown⟩

/-! ## C1: out-of-phase movement and capture mutations are rejected -/

/-- C1.  Whenever `gameActive` is false — which is the case during the
entire countdown, since `startGameSequence` explicitly sets
`gameActive = false` and only the final countdown tick raises it —
processing a `move` or `capture_click` event from any player leaves the
whole state (tiles, players, scores, queue, phase) unchanged and emits
no broadcast. -/
theorem inactive_move_capture_noop (s : GameState) (sid : String) (tq tr : ℤ)
    (h : s.gameActive = false) :
    handleMove s sid tq tr = (s, []) ∧ handleCapture s sid = (s, []) ∧
      (startGameSequence s).1.gameActive = false := by
  refine ⟨?_, ?_, rfl⟩
  · cases hp : findPlayer s.players sid with
    | none => simp [handleMove, hp]
    | some p => simp [handleMove, hp, h]
  · cases hp : findPlayer s.players sid with
    | none => simp [handleCapture, hp]
    | some p => simp [handleCapture, hp, h]

/-- Witness for C1 at a concrete freshly booted state. -/
theorem inactive_move_capture_noop_witness :
    (initState []).gameActive = false ∧
      (handleMove (initState []) "a" 0 0 = (initState [], []) ∧
        handleCapture (initState []) "a" = (initState [], []) ∧
        (startGameSequence (initState [])).1.gameActive = false) :=
  ⟨rfl, inactive_move_capture_noop (initState []) "a" 0 0 rfl⟩

/-! ## C4: the capture difficulty formula -/

/-- The code's integer base requirement equals the spec's
real-arithmetic formula. -/
theorem captureReq_base_eq_spec (d : ℕ) : captureReq d false = specCaptureBase d := by
  unfold captureReq specCaptureBase
  simp only [Bool.false_eq_true, if_false]
  congr 1
  have hcast : (25 : ℚ) - 3 / 2 * (d : ℚ) = ((50 - 3 * (d : ℤ) : ℤ) : ℚ) / ((2 : ℕ) : ℚ) := by
    push_cast
    ring
  rw [hcast, Rat.floor_intCast_div_natCast]
  norm_num

/-- The code's integer enemy requirement equals the spec's
real-arithmetic formula. -/
theorem captureReq_enemy_eq_spec (d : ℕ) : captureReq d true = specCaptureEnemy d := by
  unfold specCaptureEnemy
  rw [← captureReq_base_eq_spec]
  unfold captureReq
  simp only [if_true, Bool.false_eq_true, if_false]
  have hcast : ((max 5 ((50 - 3 * (d : ℤ)) / 2) : ℤ) : ℚ) * (17 / 10) =
      ((max 5 ((50 - 3 * (d : ℤ)) / 2) * 17 : ℤ) : ℚ) / ((10 : ℕ) : ℚ) := by
    push_cast
    ring
  rw [hcast, Rat.floor_intCast_div_natCast]
  norm_num

/-- C4.  For any tile coordinates, the number of clicks required to
capture is `max(5, floor(25 − 1.5·d))` when neutral and
`floor(base · 1.7)` when enemy-owned, with `d` the distance to the
centre; in particular the centre tile `(0,0)` has distance 0 and
requires 25 clicks when neutral and 42 when enemy-owned. -/
theorem captureReq_formula (q r : ℤ) :
    captureReq (getDistanceToCenter q r) false = specCaptureBase (getDistanceToCenter q r) ∧
    captureReq (getDistanceToCenter q r) true = specCaptureEnemy (getDistanceToCenter q r) ∧
    getDistanceToCenter 0 0 = 0 ∧
    captureReq 0 false = 25 ∧ captureReq 0 true = 42 :=
  ⟨captureReq_base_eq_spec _, captureReq_enemy_eq_spec _, rfl, by decide, by decide⟩

/-! ## C6 and C10: the scoring tick -/

/-- The accumulated gain of one team over a tile list is 1000 per owned
inner tile (distance to centre at most `CENTER_BONUS_DIST`) plus 500
per owned outer tile. -/
theorem sum_tileGain (l : List Tile) (c : Col) :
    (l.map fun t => tileGain t c).sum =
      1000 * l.countP (fun t => t.owner == c &&
          decide (getDistanceToCenter t.q t.r ≤ CENTER_BONUS_DIST))
        + 500 * l.countP (fun t => t.owner == c &&
          decide (CENTER_BONUS_DIST < getDistanceToCenter t.q t.r)) := by
  induction l with
  | nil => simp
  | cons t l ih =>
    rw [List.map_cons, List.sum_cons, ih, List.countP_cons, List.countP_cons]
    by_cases hown : t.owner = c
    · by_cases hdist : getDistanceToCenter t.q t.r ≤ CENTER_BONUS_DIST
      · have h2 : ¬ CENTER_BONUS_DIST < getDistanceToCenter t.q t.r := Nat.not_lt.mpr hdist
        simp [tileGain, hown, hdist, h2]
        omega
      · have h2 : CENTER_BONUS_DIST < getDistanceToCenter t.q t.r := Nat.lt_of_not_le hdist
        simp [tileGain, hown, hdist, h2]
        omega
    · have hbeq : (t.owner == c) = false := by simpa using hown
      simp [tileGain, hown, hbeq]

/-- C6.  On a scoring tick in an active match, each team's cumulative
score increases by exactly `1000·k + 500·m` with `k` the number of its
tiles within distance 4 of the centre and `m` the number farther out;
the game-over transition (broadcast of a winner together with clearing
of the active flag) fires at the end of the tick exactly when some
team's cumulative score has reached 250000, and never earlier. -/
theorem scoreTick_gains (s : GameState) (h : s.gameActive = true) :
    (handleScoreTick s).1.scoresRed =
        s.scoresRed
          + 1000 * s.map.countP (fun t => t.owner == Col.red &&
              decide (getDistanceToCenter t.q t.r ≤ CENTER_BONUS_DIST))
          + 500 * s.map.countP (fun t => t.owner == Col.red &&
              decide (CENTER_BONUS_DIST < getDistanceToCenter t.q t.r)) ∧
    (handleScoreTick s).1.scoresBlue =
        s.scoresBlue
          + 1000 * s.map.countP (fun t => t.owner == Col.blue &&
              decide (getDistanceToCenter t.q t.r ≤ CENTER_BONUS_DIST))
          + 500 * s.map.countP (fun t => t.owner == Col.blue &&
              decide (CENTER_BONUS_DIST < getDistanceToCenter t.q t.r)) ∧
    (((∃ w, Broadcast.game_over w ∈ (handleScoreTick s).2) ∧
        (handleScoreTick s).1.gameActive = false) ↔
      (WIN_SCORE ≤ s.scoresRed + (s.map.map fun t => tileGain t .red).sum ∨
        WIN_SCORE ≤ s.scoresBlue + (s.map.map fun t => tileGain t .blue).sum)) := by
  have hred := sum_tileGain s.map .red
  have hblue := sum_tileGain s.map .blue
  simp only [handleScoreTick, h, Bool.true_eq_false, if_false]
  by_cases hwin : WIN_SCORE ≤ s.scoresRed + (s.map.map fun t => tileGain t .red).sum ∨
      WIN_SCORE ≤ s.scoresBlue + (s.map.map fun t => tileGain t .blue).sum
  · rw [if_pos hwin]
    refine ⟨by simp only [hred]; ring, by simp only [hblue]; ring, by simp [hwin]⟩
  · rw [if_neg hwin]
    refine ⟨by simp only [hred]; ring, by simp only [hblue]; ring, ?_⟩
    simp [hwin]

/-- A concrete active state used to witness the scoring-tick gain
theorem: one inner red tile and one outer blue tile. -/
def tickGainExample : GameState :=
  { players := [], map := [⟨0, 0, .red, 0⟩, ⟨5, 0, .blue, 0⟩],
    scoresRed := 0, scoresBlue := 0, readyQueue := [],
    gameActive := true, pendingCountdown := false }

/-- Witness for C6 at a concrete active state. -/
theorem scoreTick_gains_witness :
    tickGainExample.gameActive = true ∧
      ((handleScoreTick tickGainExample).1.scoresRed =
          tickGainExample.scoresRed
            + 1000 * tickGainExample.map.countP (fun t => t.owner == Col.red &&
                decide (getDistanceToCenter t.q t.r ≤ CENTER_BONUS_DIST))
            + 500 * tickGainExample.map.countP (fun t => t.owner == Col.red &&
                decide (CENTER_BONUS_DIST < getDistanceToCenter t.q t.r)) ∧
        (handleScoreTick tickGainExample).1.scoresBlue =
          tickGainExample.scoresBlue
            + 1000 * tickGainExample.map.countP (fun t => t.owner == Col.blue &&
                decide (getDistanceToCenter t.q t.r ≤ CENTER_BONUS_DIST))
            + 500 * tickGainExample.map.countP (fun t => t.owner == Col.blue &&
                decide (CENTER_BONUS_DIST < getDistanceToCenter t.q t.r)) ∧
        (((∃ w, Broadcast.game_over w ∈ (handleScoreTick tickGainExample).2) ∧
            (handleScoreTick tickGainExample).1.gameActive = false) ↔
          (WIN_SCORE ≤ tickGainExample.scoresRed
              + (tickGainExample.map.map fun t => tileGain t .red).sum ∨
            WIN_SCORE ≤ tickGainExample.scoresBlue
              + (tickGainExample.map.map fun t => tileGain t .blue).sum))) :=
  ⟨rfl, scoreTick_gains tickGainExample rfl⟩

/-- C10.  At the end of a scoring tick, red is declared the winner
whenever red's cumulative score has reached the threshold (so in
particular when both teams reach it in the same tick), and blue is
declared the winner exactly when blue's score reaches the threshold
while red's does not. -/
theorem scoreTick_winner (s : GameState) (h : s.gameActive = true) :
    (WIN_SCORE ≤ s.scoresRed + (s.map.map fun t => tileGain t .red).sum →
       Broadcast.game_over .red ∈ (handleScoreTick s).2) ∧
    (Broadcast.game_over .blue ∈ (handleScoreTick s).2 ↔
       (WIN_SCORE ≤ s.scoresBlue + (s.map.map fun t => tileGain t .blue).sum ∧
         s.scoresRed + (s.map.map fun t => tileGain t .red).sum < WIN_SCORE)) := by
  simp only [handleScoreTick, h, Bool.true_eq_false, if_false]
  by_cases hr : WIN_SCORE ≤ s.scoresRed + (s.map.map fun t => tileGain t .red).sum
  · rw [if_pos (Or.inl hr), if_pos hr]
    exact ⟨fun _ => by simp, by simp [Nat.not_lt.mpr hr]⟩
  · by_cases hb : WIN_SCORE ≤ s.scoresBlue + (s.map.map fun t => tileGain t .blue).sum
    · rw [if_pos (Or.inr hb), if_neg hr]
      exact ⟨fun hc => absurd hc hr, by simp [hb, Nat.lt_of_not_le hr]⟩
    · rw [if_neg (by tauto)]
      exact ⟨fun hc => absurd hc hr, by simp [hb]⟩

/-- A concrete active state in which one scoring tick pushes both
teams past the win threshold simultaneously. -/
def doubleWinExample : GameState :=
  { players := [], map := [⟨0, 0, .red, 0⟩, ⟨0, 1, .blue, 0⟩],
    scoresRed := 249000, scoresBlue := 249000, readyQueue := [],
    gameActive := true, pendingCountdown := false }

/-- Witness for C10 at a concrete state where both teams cross the
threshold in the same tick. -/
theorem scoreTick_winner_witness :
    doubleWinExample.gameActive = true ∧
      ((WIN_SCORE ≤ doubleWinExample.scoresRed
          + (doubleWinExample.map.map fun t => tileGain t .red).sum →
         Broadcast.game_over .red ∈ (handleScoreTick doubleWinExample).2) ∧
       (Broadcast.game_over .blue ∈ (handleScoreTick doubleWinExample).2 ↔
         (WIN_SCORE ≤ doubleWinExample.scoresBlue
             + (doubleWinExample.map.map fun t => tileGain t .blue).sum ∧
           doubleWinExample.scoresRed
             + (doubleWinExample.map.map fun t => tileGain t .red).sum < WIN_SCORE))) :=
  ⟨rfl, scoreTick_winner doubleWinExample rfl⟩

/-! ## C2: characterisation of the move handler -/

/-- C2.  The `move` handler is a silent no-op (identical state, no
broadcast) unless the sender is a playing player in an active match,
the target names an existing tile at hex distance exactly 1 from the
sender, and the target is owned by the sender's team or has an existing
neighbour tile owned by that team; when all preconditions hold, the
sender's position becomes the target and nothing else changes (same
tiles, scores, phase and queue; every other player untouched), with a
single roster broadcast. -/
theorem move_characterization (s : GameState) (sid : String) (tq tr : ℤ) (p : Player)
    (hp : findPlayer s.players sid = some p) :
    (¬ (p.status = .playing ∧ s.gameActive = true ∧
          ∃ target, findTile s.map tq tr = some target ∧
            hexDist p.q p.r tq tr = 1 ∧
            (target.owner = p.team ∨
              ∃ c ∈ getHexNeighbors tq tr,
                ∃ n, findTile s.map c.1 c.2 = some n ∧ n.owner = p.team)) →
        handleMove s sid tq tr = (s, [])) ∧
    ((p.status = .playing ∧ s.gameActive = true ∧
          ∃ target, findTile s.map tq tr = some target ∧
            hexDist p.q p.r tq tr = 1 ∧
            (target.owner = p.team ∨
              ∃ c ∈ getHexNeighbors tq tr,
                ∃ n, findTile s.map c.1 c.2 = some n ∧ n.owner = p.team)) →
        handleMove s sid tq tr =
          ({ s with players := s.players.map fun pl =>
              if pl.id == sid then { pl with q := tq, r := tr } else pl },
           [.player_update])) := by
  by_cases hst : p.status = Status.playing
  · by_cases hga : s.gameActive = true
    · cases htg : findTile s.map tq tr with
      | none =>
        have hmv : handleMove s sid tq tr = (s, []) := by
          simp [handleMove, hp, htg]
        refine ⟨fun _ => hmv, ?_⟩
        rintro ⟨-, -, target, htg2, -⟩
        cases htg2
      | some target =>
        by_cases hnb : (tq, tr) ∈ getHexNeighbors p.q p.r
        · by_cases hok : hasFriendlyNeighbor s.map tq tr p.team = true ∨ target.owner = p.team
          · have hmv : handleMove s sid tq tr =
                ({ s with players := s.players.map fun pl =>
                    if pl.id == sid then { pl with q := tq, r := tr } else pl },
                 [.player_update]) := by
              simp only [handleMove, hp, htg]
              rw [if_neg (by simp [hst, hga]), if_neg (not_not_intro hnb), if_pos hok]
            refine ⟨fun hneg => ?_, fun _ => hmv⟩
            exfalso
            apply hneg
            refine ⟨hst, hga, target, rfl, (mem_getHexNeighbors_iff p.q p.r tq tr).mp hnb, ?_⟩
            rcases hok with hf | ho
            · exact Or.inr ((hasFriendlyNeighbor_iff s.map tq tr p.team).mp hf)
            · exact Or.inl ho
          · have hmv : handleMove s sid tq tr = (s, []) := by
              simp only [handleMove, hp, htg]
              rw [if_neg (by simp [hst, hga]), if_neg (not_not_intro hnb), if_neg hok]
            refine ⟨fun _ => hmv, ?_⟩
            rintro ⟨-, -, target2, htg2, -, hcond⟩
            injection htg2 with he
            subst he
            exfalso
            apply hok
            rcases hcond with ho | hf
            · exact Or.inr ho
            · exact Or.inl ((hasFriendlyNeighbor_iff s.map tq tr p.team).mpr hf)
        · have hmv : handleMove s sid tq tr = (s, []) := by
            simp only [handleMove, hp, htg]
            rw [if_neg (by simp [hst, hga]), if_pos hnb]
          refine ⟨fun _ => hmv, ?_⟩
          rintro ⟨-, -, target2, htg2, hd, -⟩
          exact absurd ((mem_getHexNeighbors_iff p.q p.r tq tr).mpr hd) hnb
    · have hga' : s.gameActive = false := by
        cases hga0 : s.gameActive
        · rfl
        · exact absurd hga0 hga
      have hmv : handleMove s sid tq tr = (s, []) := by
        simp [handleMove, hp, hga']
      exact ⟨fun _ => hmv, fun hc => absurd hc.2.1 hga⟩
  · have hmv : handleMove s sid tq tr = (s, []) := by
      simp [handleMove, hp, hst]
    exact ⟨fun _ => hmv, fun hc => absurd hc.1 hst⟩

/-- A concrete active state used to witness the move
characterisation: player `"a"` on its own red tile `(0,0)`, moving to
the adjacent grey tile `(1,0)` that touches red territory. -/
def moveExample : GameState :=
  { players := [⟨"a", .red, 0, 0, .playing⟩],
    map := [⟨0, 0, .red, 0⟩, ⟨1, 0, .grey, 0⟩],
    scoresRed := 0, scoresBlue := 0, readyQueue := [],
    gameActive := true, pendingCountdown := false }

/-- The player record of `moveExample`. -/
def moveExampleP : Player := ⟨"a", .red, 0, 0, .playing⟩

/-- Witness for C2 at a concrete state and move. -/
theorem move_characterization_witness :
    findPlayer moveExample.players "a" = some moveExampleP ∧
      ((¬ (moveExampleP.status = .playing ∧ moveExample.gameActive = true ∧
            ∃ target, findTile moveExample.map 1 0 = some target ∧
              hexDist moveExampleP.q moveExampleP.r 1 0 = 1 ∧
              (target.owner = moveExampleP.team ∨
                ∃ c ∈ getHexNeighbors 1 0,
                  ∃ n, findTile moveExample.map c.1 c.2 = some n ∧
                    n.owner = moveExampleP.team)) →
          handleMove moveExample "a" 1 0 = (moveExample, [])) ∧
       ((moveExampleP.status = .playing ∧ moveExample.gameActive = true ∧
            ∃ target, findTile moveExample.map 1 0 = some target ∧
              hexDist moveExampleP.q moveExampleP.r 1 0 = 1 ∧
              (target.owner = moveExampleP.team ∨
                ∃ c ∈ getHexNeighbors 1 0,
                  ∃ n, findTile moveExample.map c.1 c.2 = some n ∧
                    n.owner = moveExampleP.team)) →
          handleMove moveExample "a" 1 0 =
            ({ moveExample with players := moveExample.players.map fun pl =>
                if pl.id == "a" then { pl with q := 1, r := 0 } else pl },
             [.player_update]))) :=
  ⟨rfl, move_characterization moveExample "a" 1 0 moveExampleP rfl⟩

/-! ## C3: characterisation of the capture handler -/

/-- Updating the single tile found at its own key changes exactly that
lookup and no other. -/
theorem findTile_update (m : List Tile) (tile : Tile) (g : Tile → Tile)
    (hg : ∀ t, (g t).q = t.q ∧ (g t).r = t.r)
    (hmem : findTile m tile.q tile.r = some tile) :
    findTile (m.map fun t => if t.q == tile.q && t.r == tile.r then g t else t)
        tile.q tile.r = some (g tile) ∧
      ∀ q r : ℤ, ¬(q = tile.q ∧ r = tile.r) →
        findTile (m.map fun t => if t.q == tile.q && t.r == tile.r then g t else t) q r =
          findTile m q r := by
  have hf : ∀ t : Tile,
      (if t.q == tile.q && t.r == tile.r then g t else t).q = t.q ∧
      (if t.q == tile.q && t.r == tile.r then g t else t).r = t.r := by
    intro t
    by_cases h : (t.q == tile.q && t.r == tile.r) = true
    · simp [h, (hg t).1, (hg t).2]
    · simp [h]
  constructor
  · rw [findTile_map hf, hmem]
    simp
  · intro q r hne
    rw [findTile_map hf]
    cases hq : findTile m q r with
    | none => rfl
    | some t =>
      have hc := findTile_coords hq
      have hfalse : (t.q == tile.q && t.r == tile.r) = false := by
        rw [hc.1, hc.2]
        by_cases h1 : q = tile.q <;> by_cases h2 : r = tile.r <;> simp_all
      simp only [Option.map_some', hfalse, Bool.false_eq_true, if_false]

/-- C3.  For a playing player in an active match standing on an
existing tile: capturing a tile already owned by their team changes
nothing; otherwise the click counter of exactly that tile is
incremented by 1, and if the incremented counter reaches the capture
requirement the tile flips to the player's team with the counter reset
to 0 (with a full map broadcast), while below the requirement only the
counter changes (with an incremental progress broadcast); in both
cases every other tile, the players, the scores, the queue and the
phase are untouched. -/
theorem capture_characterization (s : GameState) (sid : String) (p : Player) (tile : Tile)
    (hga : s.gameActive = true)
    (hp : findPlayer s.players sid = some p)
    (hst : p.status = .playing)
    (ht : findTile s.map p.q p.r = some tile) :
    (tile.owner = p.team → handleCapture s sid = (s, [])) ∧
    (tile.owner ≠ p.team →
      (captureReq (getDistanceToCenter tile.q tile.r) (tile.owner != .grey) ≤
          (tile.current_clicks + 1 : ℤ) →
        findTile (handleCapture s sid).1.map tile.q tile.r =
            some { tile with owner := p.team, current_clicks := 0 } ∧
          (∀ q r : ℤ, ¬(q = tile.q ∧ r = tile.r) →
            findTile (handleCapture s sid).1.map q r = findTile s.map q r) ∧
          (handleCapture s sid).1.players = s.players ∧
          (handleCapture s sid).1.scoresRed = s.scoresRed ∧
          (handleCapture s sid).1.scoresBlue = s.scoresBlue ∧
          (handleCapture s sid).1.readyQueue = s.readyQueue ∧
          (handleCapture s sid).1.gameActive = s.gameActive ∧
          (handleCapture s sid).2 = [.map_update]) ∧
      ((tile.current_clicks + 1 : ℤ) <
          captureReq (getDistanceToCenter tile.q tile.r) (tile.owner != .grey) →
        findTile (handleCapture s sid).1.map tile.q tile.r =
            some { tile with current_clicks := tile.current_clicks + 1 } ∧
          (∀ q r : ℤ, ¬(q = tile.q ∧ r = tile.r) →
            findTile (handleCapture s sid).1.map q r = findTile s.map q r) ∧
          (handleCapture s sid).1.players = s.players ∧
          (handleCapture s sid).1.scoresRed = s.scoresRed ∧
          (handleCapture s sid).1.scoresBlue = s.scoresBlue ∧
          (handleCapture s sid).1.readyQueue = s.readyQueue ∧
          (handleCapture s sid).1.gameActive = s.gameActive ∧
          (handleCapture s sid).2 = [.tile_progress tile.q tile.r (tile.current_clicks + 1)
            (captureReq (getDistanceToCenter tile.q tile.r) (tile.owner != .grey))])) := by
  have hcoords := findTile_coords ht
  by_cases hown : tile.owner = p.team
  · have hc : handleCapture s sid = (s, []) := by
      simp only [handleCapture, hp, ht]
      rw [if_neg (by simp [hst, hga]), if_pos hown]
    exact ⟨fun _ => hc, fun hno => absurd hown hno⟩
  · refine ⟨fun h => absurd h hown, fun _ => ⟨?_, ?_⟩⟩
    · intro hge
      have hc : handleCapture s sid =
          ({ s with map := s.map.map fun t =>
              if t.q == tile.q && t.r == tile.r then
                { t with owner := p.team, current_clicks := 0 }
              else t },
           [.map_update]) := by
        simp only [handleCapture, hp, ht]
        rw [if_neg (by simp [hst, hga]), if_neg hown, if_pos (by exact_mod_cast hge)]
      rw [hc]
      have hupd := findTile_update s.map tile
        (fun t => { t with owner := p.team, current_clicks := 0 })
        (fun t => ⟨rfl, rfl⟩) (by rw [← hcoords.1, ← hcoords.2] at ht; exact ht)
      exact ⟨hupd.1, hupd.2, rfl, rfl, rfl, rfl, rfl, rfl⟩
    · intro hlt
      have hc : handleCapture s sid =
          ({ s with map := s.map.map fun t =>
              if t.q == tile.q && t.r == tile.r then
                { t with current_clicks := tile.current_clicks + 1 }
              else t },
           [.tile_progress tile.q tile.r (tile.current_clicks + 1)
             (captureReq (getDistanceToCenter tile.q tile.r) (tile.owner != .grey))]) := by
        simp only [handleCapture, hp, ht]
        rw [if_neg (by simp [hst, hga]), if_neg hown, if_neg (by exact_mod_cast not_le.mpr hlt)]
      rw [hc]
      have hupd := findTile_update s.map tile
        (fun t => { t with current_clicks := tile.current_clicks + 1 })
        (fun t => ⟨rfl, rfl⟩) (by rw [← hcoords.1, ← hcoords.2] at ht; exact ht)
      exact ⟨hupd.1, hupd.2, rfl, rfl, rfl, rfl, rfl, rfl⟩

/-- A concrete active state used to witness the capture
characterisation: player `"a"` (red, playing) stands on the neutral
centre tile. -/
def captureExample : GameState :=
  { players := [⟨"a", .red, 0, 0, .playing⟩],
    map := [⟨0, 0, .grey, 0⟩, ⟨1, 0, .red, 0⟩],
    scoresRed := 0, scoresBlue := 0, readyQueue := [],
    gameActive := true, pendingCountdown := false }

/-- The player record of `captureExample`. -/
def captureExampleP : Player := ⟨"a", .red, 0, 0, .playing⟩

/-- The tile under the player of `captureExample`. -/
def captureExampleT : Tile := ⟨0, 0, .grey, 0⟩

/-- Witness for C3 at a concrete state (a click on the neutral centre
tile, far below its 25-click requirement). -/
theorem capture_characterization_witness :
    captureExample.gameActive = true ∧
    findPlayer captureExample.players "a" = some captureExampleP ∧
    captureExampleP.status = .playing ∧
    findTile captureExample.map captureExampleP.q captureExampleP.r = some captureExampleT ∧
    ((captureExampleT.owner = captureExampleP.team →
        handleCapture captureExample "a" = (captureExample, [])) ∧
      (captureExampleT.owner ≠ captureExampleP.team →
        (captureReq (getDistanceToCenter captureExampleT.q captureExampleT.r)
              (captureExampleT.owner != .grey) ≤
            (captureExampleT.current_clicks + 1 : ℤ) →
          findTile (handleCapture captureExample "a").1.map
              captureExampleT.q captureExampleT.r =
              some { captureExampleT with owner := captureExampleP.team, current_clicks := 0 } ∧
            (∀ q r : ℤ, ¬(q = captureExampleT.q ∧ r = captureExampleT.r) →
              findTile (handleCapture captureExample "a").1.map q r =
                findTile captureExample.map q r) ∧
            (handleCapture captureExample "a").1.players = captureExample.players ∧
            (handleCapture captureExample "a").1.scoresRed = captureExample.scoresRed ∧
            (handleCapture captureExample "a").1.scoresBlue = captureExample.scoresBlue ∧
            (handleCapture captureExample "a").1.readyQueue = captureExample.readyQueue ∧
            (handleCapture captureExample "a").1.gameActive = captureExample.gameActive ∧
            (handleCapture captureExample "a").2 = [.map_update]) ∧
        ((captureExampleT.current_clicks + 1 : ℤ) <
            captureReq (getDistanceToCenter captureExampleT.q captureExampleT.r)
              (captureExampleT.owner != .grey) →
          findTile (handleCapture captureExample "a").1.map
              captureExampleT.q captureExampleT.r =
              some { captureExampleT with
                       current_clicks := captureExampleT.current_clicks + 1 } ∧
            (∀ q r : ℤ, ¬(q = captureExampleT.q ∧ r = captureExampleT.r) →
              findTile (handleCapture captureExample "a").1.map q r =
                findTile captureExample.map q r) ∧
            (handleCapture captureExample "a").1.players = captureExample.players ∧
            (handleCapture captureExample "a").1.scoresRed = captureExample.scoresRed ∧
            (handleCapture captureExample "a").1.scoresBlue = captureExample.scoresBlue ∧
            (handleCapture captureExample "a").1.readyQueue = captureExample.readyQueue ∧
            (handleCapture captureExample "a").1.gameActive = captureExample.gameActive ∧
            (handleCapture captureExample "a").2 =
              [.tile_progress captureExampleT.q captureExampleT.r
                (captureExampleT.current_clicks + 1)
                (captureReq (getDistanceToCenter captureExampleT.q captureExampleT.r)
                  (captureExampleT.owner != .grey))]))) :=
  ⟨rfl, rfl, rfl, rfl,
    capture_characterization captureExample "a" captureExampleP captureExampleT
      rfl rfl rfl rfl⟩

/-! ## C7: team balancing -/

/-- The id-keyed pointwise update is the identity on a list containing
no record with the given id. -/
theorem map_update_of_not_mem (ps : List Player) (sid : String) (f : Player → Player)
    (h : ∀ x ∈ ps, ¬ x.id = sid) :
    (ps.map fun x => if x.id == sid then f x else x) = ps := by
  induction ps with
  | nil => rfl
  | cons a l ih =>
    have ha : (a.id == sid) = false := by
      simpa using h a (List.mem_cons_self a l)
    rw [List.map_cons, ha]
    simp only [Bool.false_eq_true, if_false]
    rw [ih fun x hx => h x (List.mem_cons_of_mem a hx)]

/-- Looking up the updated id after an id-keyed pointwise update
returns the transformed record. -/
theorem findPlayer_map_update (ps : List Player) (sid : String) (f : Player → Player)
    (hid : ∀ x, (f x).id = x.id) (p : Player)
    (hp : findPlayer ps sid = some p) :
    findPlayer (ps.map fun x => if x.id == sid then f x else x) sid = some (f p) := by
  unfold findPlayer at hp ⊢
  induction ps with
  | nil => cases hp
  | cons a l ih =>
    by_cases ha : a.id = sid
    · rw [List.find?_cons_of_pos _ (by simpa using ha)] at hp
      injection hp with he
      subst he
      rw [List.map_cons, if_pos (by simpa using ha)]
      exact List.find?_cons_of_pos _ (by simpa using (hid a).trans ha)
    · rw [List.find?_cons_of_neg _ (by simpa using ha)] at hp
      rw [List.map_cons, if_neg (by simpa using ha)]
      rw [List.find?_cons_of_neg _ (by simpa using ha)]
      exact ih hp

/-- Effect of an id-keyed pointwise update on a `countP`, for a roster
with pairwise distinct ids: only the record at the id changes its
contribution. -/
theorem countP_map_update (ps : List Player) (sid : String) (f : Player → Player)
    (pred : Player → Bool) (p : Player)
    (hnd : (ps.map Player.id).Nodup)
    (hp : findPlayer ps sid = some p) :
    (ps.map fun x => if x.id == sid then f x else x).countP pred
        + (if pred p then 1 else 0)
      = ps.countP pred + (if pred (f p) then 1 else 0) := by
  unfold findPlayer at hp
  induction ps with
  | nil => cases hp
  | cons a l ih =>
    rw [List.map_cons, List.nodup_cons] at hnd
    by_cases ha : a.id = sid
    · rw [List.find?_cons_of_pos _ (by simpa using ha)] at hp
      injection hp with he
      subst he
      have htail : ∀ x ∈ l, ¬ x.id = sid := by
        intro x hx hxs
        exact hnd.1 (by rw [ha, ← hxs]; exact List.mem_map_of_mem _ hx)
      rw [List.map_cons, if_pos (by simpa using ha),
        map_update_of_not_mem l sid f htail, List.countP_cons, List.countP_cons]
      split_ifs <;> omega
    · rw [List.find?_cons_of_neg _ (by simpa using ha)] at hp
      have := ih hnd.2 hp
      rw [List.map_cons, if_neg (by simpa using ha), List.countP_cons, List.countP_cons]
      omega

/-- The result of `assignTeam` on an existing player, as an explicit
pointwise update. -/
theorem assignTeam_eq (s : GameState) (sid : String) (p : Player)
    (hp : findPlayer s.players sid = some p) :
    (assignTeam s sid).1 =
      { s with players := s.players.map fun pl =>
          if pl.id == sid then
            { pl with
                team := (if countTeam s.players .red > countTeam s.players .blue
                         then Col.blue else Col.red),
                q := (if (if countTeam s.players .red > countTeam s.players .blue
                          then Col.blue else Col.red) = Col.red
                      then -(MAP_RADIUS : ℤ) else (MAP_RADIUS : ℤ)),
                r := 0, status := .playing }
          else pl } := by
  simp only [assignTeam, hp]

/-- Bookkeeping for `assignTeam`: how the per-team playing count at a
colour changes, for a roster with pairwise distinct ids. -/
theorem countTeam_assignTeam (s : GameState) (sid : String) (p : Player)
    (hnd : (s.players.map Player.id).Nodup)
    (hp : findPlayer s.players sid = some p) (c : Col) :
    countTeam (assignTeam s sid).1.players c
        + (if p.status == .playing && p.team == c then 1 else 0)
      = countTeam s.players c +
        (if (if countTeam s.players .red > countTeam s.players .blue
             then Col.blue else Col.red) == c
         then 1 else 0) := by
  have hupd := countP_map_update s.players sid
    (fun pl =>
      { pl with
          team := (if countTeam s.players .red > countTeam s.players .blue
                   then Col.blue else Col.red),
          q := (if (if countTeam s.players .red > countTeam s.players .blue
                    then Col.blue else Col.red) = Col.red
                then -(MAP_RADIUS : ℤ) else (MAP_RADIUS : ℤ)),
          r := 0, status := .playing })
    (fun x => x.status == .playing && x.team == c) p hnd hp
  rw [assignTeam_eq s sid p hp]
  simpa [countTeam, List.countP_eq_length_filter] using hupd

/-- C7 (amended).  `assignTeam` always assigns to the team that does
not have more playing members — the strictly smaller team, with the
deterministic tie-break to red — sets the player's status to playing
and places it on the assigned team's base tile; and whenever the
assigned player was not already playing, a pre-assignment imbalance of
at most 1 is preserved. -/
theorem assignTeam_balances (s : GameState) (sid : String) (p : Player)
    (hnd : (s.players.map Player.id).Nodup)
    (hp : findPlayer s.players sid = some p) :
    (∃ p2, findPlayer (assignTeam s sid).1.players sid = some p2 ∧
        p2.status = .playing ∧ p2.r = 0 ∧
        p2.team = (if countTeam s.players .red > countTeam s.players .blue
                   then Col.blue else Col.red) ∧
        p2.q = (if p2.team = Col.red then -(MAP_RADIUS : ℤ) else (MAP_RADIUS : ℤ))) ∧
    (countTeam s.players .red < countTeam s.players .blue →
      ∀ p2, findPlayer (assignTeam s sid).1.players sid = some p2 → p2.team = Col.red) ∧
    (countTeam s.players .blue < countTeam s.players .red →
      ∀ p2, findPlayer (assignTeam s sid).1.players sid = some p2 → p2.team = Col.blue) ∧
    (p.status = .spectating →
      countTeam s.players .red ≤ countTeam s.players .blue + 1 →
      countTeam s.players .blue ≤ countTeam s.players .red + 1 →
      countTeam (assignTeam s sid).1.players .red ≤
          countTeam (assignTeam s sid).1.players .blue + 1 ∧
        countTeam (assignTeam s sid).1.players .blue ≤
          countTeam (assignTeam s sid).1.players .red + 1) := by
  have hfind : findPlayer (assignTeam s sid).1.players sid =
      some { p with
               team := (if countTeam s.players .red > countTeam s.players .blue
                        then Col.blue else Col.red),
               q := (if (if countTeam s.players .red > countTeam s.players .blue
                         then Col.blue else Col.red) = Col.red
                     then -(MAP_RADIUS : ℤ) else (MAP_RADIUS : ℤ)),
               r := 0, status := .playing } := by
    rw [assignTeam_eq s sid p hp]
    exact findPlayer_map_update s.players sid
      (fun pl =>
        { pl with
            team := (if countTeam s.players .red > countTeam s.players .blue
                     then Col.blue else Col.red),
            q := (if (if countTeam s.players .red > countTeam s.players .blue
                      then Col.blue else Col.red) = Col.red
                  then -(MAP_RADIUS : ℤ) else (MAP_RADIUS : ℤ)),
            r := 0, status := .playing })
      (fun x => rfl) p hp
  refine ⟨⟨_, hfind, rfl, rfl, rfl, rfl⟩, ?_, ?_, ?_⟩
  · intro hlt p2 hp2
    rw [hfind] at hp2
    injection hp2 with he
    subst he
    show (if countTeam s.players .red > countTeam s.players .blue
          then Col.blue else Col.red) = Col.red
    rw [if_neg (by omega)]
  · intro hlt p2 hp2
    rw [hfind] at hp2
    injection hp2 with he
    subst he
    show (if countTeam s.players .red > countTeam s.players .blue
          then Col.blue else Col.red) = Col.blue
    rw [if_pos (by omega)]
  · intro hspec hrb hbr
    have hR := countTeam_assignTeam s sid p hnd hp Col.red
    have hB := countTeam_assignTeam s sid p hnd hp Col.blue
    rw [hspec] at hR hB
    by_cases hgt : countTeam s.players .red > countTeam s.players .blue
    · rw [if_pos hgt] at hR hB
      simp at hR hB
      omega
    · rw [if_neg hgt] at hR hB
      simp at hR hB
      omega

/-- A concrete tie state with two playing players, one per team. -/
def imbalanceExample : GameState :=
  { players := [⟨"a", .red, -12, 0, .playing⟩, ⟨"b", .blue, 12, 0, .playing⟩],
    map := [], scoresRed := 0, scoresBlue := 0, readyQueue := [],
    gameActive := true, pendingCountdown := false }

/-- Counterexample to C7 as stated: when the already-playing blue
player `"b"` is re-assigned during a 1-1 tie (which happens when a
playing player emits `request_join` in an active match), the tie-break
moves it to red, leaving the teams imbalanced 2-0 even though they
differed by 0 before the assignment. -/
theorem assignTeam_imbalance_cex :
    countTeam imbalanceExample.players .red ≤ countTeam imbalanceExample.players .blue + 1 ∧
    countTeam imbalanceExample.players .blue ≤ countTeam imbalanceExample.players .red + 1 ∧
    countTeam (assignTeam imbalanceExample "b").1.players .red = 2 ∧
    countTeam (assignTeam imbalanceExample "b").1.players .blue = 0 := by
  decide

/-- Witness for the amended C7 at a concrete state: a spectating
player joining a 1-0 roster is sent to blue, restoring the balance. -/
def balanceExample : GameState :=
  { players := [⟨"a", .red, -12, 0, .playing⟩, ⟨"c", .spectator, 0, 0, .spectating⟩],
    map := [], scoresRed := 0, scoresBlue := 0, readyQueue := [],
    gameActive := true, pendingCountdown := false }

/-- The spectating player of `balanceExample`. -/
def balanceExampleP : Player := ⟨"c", .spectator, 0, 0, .spectating⟩

/-- Witness for C7 (amended) at a concrete state. -/
theorem assignTeam_balances_witness :
    (balanceExample.players.map Player.id).Nodup ∧
    findPlayer balanceExample.players "c" = some balanceExampleP ∧
    ((∃ p2, findPlayer (assignTeam balanceExample "c").1.players "c" = some p2 ∧
        p2.status = .playing ∧ p2.r = 0 ∧
        p2.team = (if countTeam balanceExample.players .red > countTeam balanceExample.players .blue
                   then Col.blue else Col.red) ∧
        p2.q = (if p2.team = Col.red then -(MAP_RADIUS : ℤ) else (MAP_RADIUS : ℤ))) ∧
    (countTeam balanceExample.players .red < countTeam balanceExample.players .blue →
      ∀ p2, findPlayer (assignTeam balanceExample "c").1.players "c" = some p2 →
        p2.team = Col.red) ∧
    (countTeam balanceExample.players .blue < countTeam balanceExample.players .red →
      ∀ p2, findPlayer (assignTeam balanceExample "c").1.players "c" = some p2 →
        p2.team = Col.blue) ∧
    (balanceExampleP.status = .spectating →
      countTeam balanceExample.players .red ≤ countTeam balanceExample.players .blue + 1 →
      countTeam balanceExample.players .blue ≤ countTeam balanceExample.players .red + 1 →
      countTeam (assignTeam balanceExample "c").1.players .red ≤
          countTeam (assignTeam balanceExample "c").1.players .blue + 1 ∧
        countTeam (assignTeam balanceExample "c").1.players .blue ≤
          countTeam (assignTeam balanceExample "c").1.players .red + 1)) :=
  ⟨by decide, rfl,
    assignTeam_balances balanceExample "c" balanceExampleP (by decide) rfl⟩

/-! ## C8: late join during an active match -/

/-- A concrete active state whose ready queue is empty, with one
spectating connected player. -/
def lateJoinExample : GameState :=
  { players := [⟨"a", .spectator, 0, 0, .spectating⟩],
    map := [⟨0, 0, .grey, 0⟩],
    scoresRed := 0, scoresBlue := 0, readyQueue := [],
    gameActive := true, pendingCountdown := false }

/-- Counterexample to C8 as stated: `request_join` adds the sender to
the ready queue before checking the phase, so a late join during an
active match leaves the sender's id in the queue — the queue is not
the same as before the request. -/
theorem requestJoin_active_queue_cex :
    (handleRequestJoin lateJoinExample "a").1.readyQueue = ["a"] ∧
      lateJoinExample.readyQueue = [] ∧
      (handleRequestJoin lateJoinExample "a").1.readyQueue ≠ lateJoinExample.readyQueue := by
  decide

/-- `assignTeam` touches only the player roster: map, scores, queue
and flags pass through unchanged. -/
theorem assignTeam_frame (s : GameState) (sid : String) :
    (assignTeam s sid).1.map = s.map ∧ (assignTeam s sid).1.scoresRed = s.scoresRed ∧
    (assignTeam s sid).1.scoresBlue = s.scoresBlue ∧
    (assignTeam s sid).1.readyQueue = s.readyQueue ∧
    (assignTeam s sid).1.gameActive = s.gameActive ∧
    (assignTeam s sid).1.pendingCountdown = s.pendingCountdown := by
  unfold assignTeam
  cases findPlayer s.players sid <;> simp

/-- C8 (amended).  A `request_join` during an active match assigns the
connected sender a team immediately (the sender becomes a playing
member of red or blue, able to act in the current match) and no game
start is triggered; however the queue is not bypassed untouched: the
sender's id is first added to the ready queue, and the queue after the
request is exactly the queue before with the sender's id inserted (a
no-op when already present). -/
theorem requestJoin_active (s : GameState) (sid : String) (p : Player)
    (hga : s.gameActive = true)
    (hp : findPlayer s.players sid = some p) :
    (handleRequestJoin s sid).1.readyQueue = addToQueue s.readyQueue sid ∧
    (∃ p2, findPlayer (handleRequestJoin s sid).1.players sid = some p2 ∧
        p2.status = .playing ∧ (p2.team = .red ∨ p2.team = .blue)) ∧
    (handleRequestJoin s sid).1.map = s.map ∧
    (handleRequestJoin s sid).1.scoresRed = s.scoresRed ∧
    (handleRequestJoin s sid).1.scoresBlue = s.scoresBlue ∧
    (handleRequestJoin s sid).1.gameActive = true ∧
    (handleRequestJoin s sid).1.pendingCountdown = s.pendingCountdown := by
  have hq : { s with readyQueue := addToQueue s.readyQueue sid }.gameActive = true := hga
  have hjoin : handleRequestJoin s sid =
      ((assignTeam { s with readyQueue := addToQueue s.readyQueue sid } sid).1,
        (assignTeam { s with readyQueue := addToQueue s.readyQueue sid } sid).2
          ++ [.notification "Joining active game!"]) := by
    unfold handleRequestJoin
    rw [if_neg (by simp [hga]), if_neg (by simp [hga]), if_pos hq]
  have hp0 : findPlayer { s with readyQueue := addToQueue s.readyQueue sid }.players sid
      = some p := hp
  obtain ⟨h1, h2, h3, h4, h5, h6⟩ :=
    assignTeam_frame { s with readyQueue := addToQueue s.readyQueue sid } sid
  rw [hjoin]
  refine ⟨h4, ?_, h1, h2, h3, h5.trans hga, h6⟩
  have hfind := findPlayer_map_update s.players sid
    (fun pl =>
      { pl with
          team := (if countTeam s.players .red > countTeam s.players .blue
                   then Col.blue else Col.red),
          q := (if (if countTeam s.players .red > countTeam s.players .blue
                    then Col.blue else Col.red) = Col.red
                then -(MAP_RADIUS : ℤ) else (MAP_RADIUS : ℤ)),
          r := 0, status := .playing })
    (fun x => rfl) p hp
  have hfind2 : findPlayer
      (assignTeam { s with readyQueue := addToQueue s.readyQueue sid } sid).1.players sid =
      some { p with
          team := (if countTeam s.players .red > countTeam s.players .blue
                   then Col.blue else Col.red),
          q := (if (if countTeam s.players .red > countTeam s.players .blue
                    then Col.blue else Col.red) = Col.red
                then -(MAP_RADIUS : ℤ) else (MAP_RADIUS : ℤ)),
          r := 0, status := .playing } := by
    rw [assignTeam_eq _ sid p hp0]
    exact hfind
  refine ⟨_, hfind2, rfl, ?_⟩
  by_cases hgt : countTeam s.players .red > countTeam s.players .blue
  · right
    show (if countTeam s.players .red > countTeam s.players .blue
          then Col.blue else Col.red) = Col.blue
    rw [if_pos hgt]
  · left
    show (if countTeam s.players .red > countTeam s.players .blue
          then Col.blue else Col.red) = Col.red
    rw [if_neg hgt]

/-- A concrete active state used to witness the amended C8. -/
def lateJoinExample2 : GameState :=
  { players := [⟨"b", .spectator, 0, 0, .spectating⟩],
    map := [⟨0, 0, .grey, 0⟩],
    scoresRed := 0, scoresBlue := 0, readyQueue := ["z"],
    gameActive := true, pendingCountdown := false }

/-- The spectating player of `lateJoinExample2`. -/
def lateJoinExample2P : Player := ⟨"b", .spectator, 0, 0, .spectating⟩

/-- Witness for C8 (amended) at a concrete state. -/
theorem requestJoin_active_witness :
    lateJoinExample2.gameActive = true ∧
    findPlayer lateJoinExample2.players "b" = some lateJoinExample2P ∧
    ((handleRequestJoin lateJoinExample2 "b").1.readyQueue =
        addToQueue lateJoinExample2.readyQueue "b" ∧
      (∃ p2, findPlayer (handleRequestJoin lateJoinExample2 "b").1.players "b" = some p2 ∧
          p2.status = .playing ∧ (p2.team = .red ∨ p2.team = .blue)) ∧
      (handleRequestJoin lateJoinExample2 "b").1.map = lateJoinExample2.map ∧
      (handleRequestJoin lateJoinExample2 "b").1.scoresRed = lateJoinExample2.scoresRed ∧
      (handleRequestJoin lateJoinExample2 "b").1.scoresBlue = lateJoinExample2.scoresBlue ∧
      (handleRequestJoin lateJoinExample2 "b").1.gameActive = true ∧
      (handleRequestJoin lateJoinExample2 "b").1.pendingCountdown =
        lateJoinExample2.pendingCountdown) :=
  ⟨rfl, rfl, requestJoin_active lateJoinExample2 "b" lateJoinExample2P rfl rfl⟩

/-! ## C5: fresh map generation -/

/-- The length of one inner map-generation loop, i.e. the number of
`r` values visited for one `q`. -/
theorem length_rList (R : ℕ) (q : ℤ) :
    (rList R q).length = (min (R : ℤ) (-q + R) - max (-(R : ℤ)) (-q - R) + 1).toNat := by
  unfold rList
  rw [List.length_map, List.length_range]

/-- Sums over `List.range` as `Finset.range` sums. -/
theorem sum_map_range (f : ℕ → ℕ) (n : ℕ) :
    ((List.range n).map f).sum = ∑ i in Finset.range n, f i := by
  induction n with
  | zero => simp
  | succ n ih =>
    rw [List.range_succ, Finset.sum_range_succ, List.map_append, List.sum_append]
    simp [ih]

/-- The tent-shaped sum underlying the hexagon count. -/
theorem sum_min_self (R : ℕ) :
    ∑ i in Finset.range (2 * R + 1), min i (2 * R - i) = R ^ 2 := by
  induction R with
  | zero => simp
  | succ R ih =>
    have h1 : 2 * (R + 1) + 1 = (2 * R + 1) + 1 + 1 := by ring
    rw [h1, Finset.sum_range_succ, Finset.sum_range_succ']
    have h2 : ∀ i ∈ Finset.range (2 * R + 1),
        min (i + 1) (2 * (R + 1) - (i + 1)) = min i (2 * R - i) + 1 := by
      intro i hi
      rw [Finset.mem_range] at hi
      omega
    rw [Finset.sum_congr rfl h2, Finset.sum_add_distrib, ih]
    simp
    ring_nf
    omega

/-- The length of a `flatMap` as the sum of the inner lengths. -/
theorem length_flatMap_sum (l : List α) (f : α → List β) :
    (l.flatMap f).length = (l.map fun a => (f a).length).sum := by
  induction l with
  | nil => rfl
  | cons a l ih => simp [List.flatMap_cons, ih]

/-- The generation loop produces exactly `3R²+3R+1` tiles. -/
theorem length_genTiles (R : ℕ) : (genTiles R).length = 3 * R ^ 2 + 3 * R + 1 := by
  have h0 : (genTiles R).length
      = ((List.range (2 * R + 1)).map fun i : ℕ => (rList R ((i : ℤ) - R)).length).sum := by
    rw [genTiles, qList, length_flatMap_sum, List.map_map]
    have hfun : ((fun q => ((rList R q).map fun r =>
          (⟨q, r, .grey, 0⟩ : Tile)).length) ∘ fun i : ℕ => (i : ℤ) - R)
        = fun i : ℕ => (rList R ((i : ℤ) - R)).length := by
      funext i
      simp [Function.comp, List.length_map]
    rw [hfun]
  rw [h0]
  have h1 : ∀ i ∈ Finset.range (2 * R + 1),
      (rList R ((i : ℤ) - R)).length = R + 1 + min i (2 * R - i) := by
    intro i hi
    rw [Finset.mem_range] at hi
    rw [length_rList]
    omega
  rw [sum_map_range, Finset.sum_congr rfl h1, Finset.sum_add_distrib, sum_min_self]
  simp [Finset.sum_const, Finset.card_range]
  ring

/-- The generated coordinates are exactly the hexagonal region
`max(|q|,|r|,|q+r|) ≤ R`. -/
theorem mem_genTiles_iff (R : ℕ) (q r : ℤ) :
    (∃ t ∈ genTiles R, t.q = q ∧ t.r = r) ↔
      max (max q.natAbs r.natAbs) (q + r).natAbs ≤ R := by
  constructor
  · rintro ⟨t, ht, hq, hr⟩
    simp only [genTiles, List.mem_flatMap, qList, List.mem_map, List.mem_range] at ht
    obtain ⟨a, ⟨i, hi, rfl⟩, ht2⟩ := ht
    simp only [rList, List.mem_map, List.mem_range] at ht2
    obtain ⟨j, hj, rfl⟩ := ht2
    dsimp only at hq hr
    subst hq
    subst hr
    simp only [max_le_iff]
    omega
  · intro h
    simp only [max_le_iff] at h
    have hqm : q ∈ qList R := by
      simp only [qList, List.mem_map, List.mem_range]
      exact ⟨(q + R).toNat, by omega, by omega⟩
    have hrm : r ∈ rList R q := by
      simp only [rList, List.mem_map, List.mem_range]
      exact ⟨(r - max (-(R : ℤ)) (-q - R)).toNat, by omega, by omega⟩
    refine ⟨⟨q, r, .grey, 0⟩, ?_, rfl, rfl⟩
    exact List.mem_flatMap_of_mem hqm (List.mem_map_of_mem _ hrm)

/-- Every generated tile starts neutral with a zero counter. -/
theorem mem_genTiles_val (R : ℕ) : ∀ t ∈ genTiles R, t.owner = .grey ∧ t.current_clicks = 0 := by
  intro t ht
  simp only [genTiles, List.mem_flatMap, List.mem_map] at ht
  obtain ⟨a, -, x, -, rfl⟩ := ht
  exact ⟨rfl, rfl⟩

/-- `setTileOwner` preserves which coordinates are present. -/
theorem exists_coords_setTileOwner (m : List Tile) (q0 r0 : ℤ) (o : Col) (q r : ℤ) :
    (∃ t ∈ setTileOwner m q0 r0 o, t.q = q ∧ t.r = r) ↔ ∃ t ∈ m, t.q = q ∧ t.r = r := by
  simp only [setTileOwner, List.mem_map]
  constructor
  · rintro ⟨t, ⟨t0, ht0, rfl⟩, hq, hr⟩
    have hco : (if t0.q == q0 && t0.r == r0 then { t0 with owner := o } else t0).q = t0.q ∧
        (if t0.q == q0 && t0.r == r0 then { t0 with owner := o } else t0).r = t0.r := by
      split <;> exact ⟨rfl, rfl⟩
    exact ⟨t0, ht0, hco.1 ▸ hq, hco.2 ▸ hr⟩
  · rintro ⟨t0, ht0, hq, hr⟩
    refine ⟨_, ⟨t0, ht0, rfl⟩, ?_, ?_⟩ <;> split <;> simp [hq, hr]

/-- In the fresh map the two base tiles are owned by their teams and
every other tile is neutral, all with zero counters. -/
theorem initMapTiles_owner (R : ℕ) (hR : 1 ≤ R) :
    ∀ t ∈ initMapTiles R, t.current_clicks = 0 ∧
      t.owner = (if t.q = -(R : ℤ) ∧ t.r = 0 then Col.red
                 else if t.q = (R : ℤ) ∧ t.r = 0 then Col.blue else Col.grey) := by
  intro t ht
  simp only [initMapTiles, setTileOwner, List.mem_map] at ht
  obtain ⟨t1, ⟨t0, ht0, rfl⟩, rfl⟩ := ht
  obtain ⟨hgrey, hclicks⟩ := mem_genTiles_val R t0 ht0
  have hne : ¬(-(R : ℤ) = (R : ℤ)) := by omega
  have hne2 : ¬((R : ℤ) = -(R : ℤ)) := by omega
  by_cases h1 : t0.q = -(R : ℤ) ∧ t0.r = 0 <;>
    by_cases h2 : t0.q = (R : ℤ) ∧ t0.r = 0
  · exfalso
    omega
  · have c1 : (t0.q == -(R : ℤ) && t0.r == 0) = true := by
      simp [h1.1, h1.2]
    have c2 : (t0.q == (R : ℤ)) = false := by
      simp only [beq_eq_false_iff_ne, ne_eq]
      omega
    simp [c1, c2, hclicks, h1.1, h1.2, hgrey, hne, hne2]
  · have c1 : (t0.q == -(R : ℤ)) = false := by
      simp only [beq_eq_false_iff_ne, ne_eq]
      omega
    have c2 : (t0.q == (R : ℤ) && t0.r == 0) = true := by
      simp [h2.1, h2.2]
    simp [c1, c2, hclicks, h2.1, h2.2, hgrey, hne, hne2]
  · have c1 : (t0.q == -(R : ℤ) && t0.r == 0) = false := by
      by_cases hq : t0.q = -(R : ℤ) <;> by_cases hr : t0.r = 0 <;> simp_all
    have c2 : (t0.q == (R : ℤ) && t0.r == 0) = false := by
      by_cases hq : t0.q = (R : ℤ) <;> by_cases hr : t0.r = 0 <;> simp_all
    simp [c1, c2, hclicks, hgrey, h1, h2]

/-- C5.  For every radius `R ≥ 1`, a fresh map (empty persistent
store) has exactly `3R²+3R+1` tiles — precisely the axial coordinates
with `max(|q|,|r|,|q+r|) ≤ R` — each with a zero click counter, the
tile at `(−R,0)` owned by red, the tile at `(R,0)` owned by blue,
every other tile neutral, and the scores reset to zero. -/
theorem initMap_fresh (R : ℕ) (hR : 1 ≤ R) :
    (initMapTiles R).length = 3 * R ^ 2 + 3 * R + 1 ∧
    (∀ q r : ℤ, (∃ t ∈ initMapTiles R, t.q = q ∧ t.r = r) ↔
      max (max q.natAbs r.natAbs) (q + r).natAbs ≤ R) ∧
    (∀ t ∈ initMapTiles R, t.current_clicks = 0 ∧
      t.owner = (if t.q = -(R : ℤ) ∧ t.r = 0 then Col.red
                 else if t.q = (R : ℤ) ∧ t.r = 0 then Col.blue else Col.grey)) ∧
    initMapState R [] = (initMapTiles R, 0, 0) := by
  refine ⟨?_, ?_, initMapTiles_owner R hR, rfl⟩
  · simp only [initMapTiles, setTileOwner, List.length_map]
    exact length_genTiles R
  · intro q r
    rw [initMapTiles, exists_coords_setTileOwner, exists_coords_setTileOwner,
      mem_genTiles_iff]

/-- Witness for C5 at the concrete radius 2 (the 19-tile example grid
of the spec). -/
theorem initMap_fresh_witness :
    1 ≤ 2 ∧
      ((initMapTiles 2).length = 3 * 2 ^ 2 + 3 * 2 + 1 ∧
        (∀ q r : ℤ, (∃ t ∈ initMapTiles 2, t.q = q ∧ t.r = r) ↔
          max (max q.natAbs r.natAbs) (q + r).natAbs ≤ 2) ∧
        (∀ t ∈ initMapTiles 2, t.current_clicks = 0 ∧
          t.owner = (if t.q = -(2 : ℤ) ∧ t.r = 0 then Col.red
                     else if t.q = (2 : ℤ) ∧ t.r = 0 then Col.blue else Col.grey)) ∧
        initMapState 2 [] = (initMapTiles 2, 0, 0)) :=
  ⟨by decide, initMap_fresh 2 (by decide)⟩


/-! ## C9: players always stand on existing tiles -/

/-- The hexagonal playing region of the live map (radius `MAP_RADIUS`). -/
def inRegion (q r : ℤ) : Prop :=
  q.natAbs ≤ MAP_RADIUS ∧ r.natAbs ≤ MAP_RADIUS ∧ (q + r).natAbs ≤ MAP_RADIUS

instance (q r : ℤ) : Decidable (inRegion q r) := by
  unfold inRegion
  infer_instance

/-- Positional well-formedness: the map contains a tile at every
region coordinate, and every player stands on an existing tile. -/
def Inv (s : GameState) : Prop :=
  (∀ q r : ℤ, inRegion q r → (findTile s.map q r).isSome) ∧
  ∀ p ∈ s.players, (findTile s.map p.q p.r).isSome

/-- `findTile` succeeds exactly on present coordinates. -/
theorem findTile_isSome_iff (m : List Tile) (q r : ℤ) :
    (findTile m q r).isSome ↔ ∃ t ∈ m, t.q = q ∧ t.r = r := by
  unfold findTile
  rw [List.find?_isSome]
  constructor <;> rintro ⟨t, ht, h⟩ <;> exact ⟨t, ht, by simpa using h⟩

/-- Coordinate-preserving tile rewrites leave lookup success intact. -/
theorem findTile_isSome_map {m : List Tile} {f : Tile → Tile}
    (hf : ∀ t, (f t).q = t.q ∧ (f t).r = t.r) (q r : ℤ) :
    (findTile (m.map f) q r).isSome = (findTile m q r).isSome := by
  rw [findTile_map hf]
  cases findTile m q r <;> rfl

/-- Loading persisted rows never changes which coordinates exist. -/
theorem findTile_isSome_applyDb (rows : List DbRow) (m : List Tile) (q r : ℤ) :
    (findTile (applyDb m rows) q r).isSome = (findTile m q r).isSome := by
  induction rows generalizing m with
  | nil => rfl
  | cons row rows ih =>
    show (findTile (applyDb (applyDbRow m row) rows) q r).isSome = _
    rw [ih]
    unfold applyDbRow
    exact findTile_isSome_map (fun t => by split <;> exact ⟨rfl, rfl⟩) q r

/-- The fresh radius-12 map contains every region coordinate. -/
theorem initMapTiles_region (q r : ℤ) (h : inRegion q r) :
    (findTile (initMapTiles MAP_RADIUS) q r).isSome := by
  rw [findTile_isSome_iff, initMapTiles, exists_coords_setTileOwner,
    exists_coords_setTileOwner, mem_genTiles_iff]
  obtain ⟨h1, h2, h3⟩ := h
  simp only [max_le_iff]
  exact ⟨⟨h1, h2⟩, h3⟩

/-- The boot state satisfies the invariant regardless of what the
persistent store returned. -/
theorem Inv_init (rows : List DbRow) : Inv (initState rows) := by
  constructor
  · intro q r h
    show (findTile (applyDb (initMapTiles MAP_RADIUS) rows) q r).isSome
    rw [findTile_isSome_applyDb]
    exact initMapTiles_region q r h
  · intro p hp
    cases hp

/-- A fresh connection spawns its player at the origin tile. -/
theorem Inv_connect (s : GameState) (sid : String) (h : Inv s) :
    Inv (handleConnect s sid).1 := by
  refine ⟨h.1, ?_⟩
  intro p hp
  have hp2 : p ∈ upsertPlayer s.players ⟨sid, .spectator, 0, 0, .spectating⟩ := hp
  unfold upsertPlayer at hp2
  split at hp2
  · rw [List.mem_map] at hp2
    obtain ⟨x, hx, rfl⟩ := hp2
    show (findTile s.map _ _).isSome
    split
    · exact h.1 0 0 (by decide)
    · exact h.2 x hx
  · rw [List.mem_append] at hp2
    cases hp2 with
    | inl hx => exact h.2 p hx
    | inr hx =>
      rw [List.mem_singleton] at hx
      subst hx
      exact h.1 0 0 (by decide)

/-- Team assignment moves the player onto its team base tile. -/
theorem Inv_assignTeam (s : GameState) (sid : String) (h : Inv s) :
    Inv (assignTeam s sid).1 := by
  cases hp : findPlayer s.players sid with
  | none =>
    have e : (assignTeam s sid).1 = s := by
      simp only [assignTeam, hp]
    rw [e]
    exact h
  | some p =>
    rw [assignTeam_eq s sid p hp]
    refine ⟨h.1, ?_⟩
    intro pl hpl
    rw [List.mem_map] at hpl
    obtain ⟨x, hx, rfl⟩ := hpl
    by_cases hc : (x.id == sid) = true
    · rw [if_pos hc]
      show (findTile s.map
        (if (if countTeam s.players .red > countTeam s.players .blue
             then Col.blue else Col.red) = Col.red
         then -(MAP_RADIUS : ℤ) else (MAP_RADIUS : ℤ)) 0).isSome
      split
      · exact h.1 _ _ (by decide)
      · exact h.1 _ _ (by decide)
    · rw [if_neg hc]
      exact h.2 x hx

/-- The whole lobby-to-countdown sequence keeps the invariant. -/
theorem Inv_startGameSequence (s : GameState) (h : Inv s) :
    Inv (startGameSequence s).1 := by
  have hfold : ∀ (ids : List String) (acc : GameState × List Broadcast), Inv acc.1 →
      Inv (ids.foldl (fun (acc : GameState × List Broadcast) id =>
        let next := assignTeam acc.1 id
        (next.1, acc.2 ++ next.2)) acc).1 := by
    intro ids
    induction ids with
    | nil => intro acc hacc; exact hacc
    | cons id ids ih =>
      intro acc hacc
      rw [List.foldl_cons]
      exact ih _ (Inv_assignTeam _ _ hacc)
  exact hfold s.readyQueue (s, []) h

/-- Join requests keep the invariant in every phase. -/
theorem Inv_requestJoin (s : GameState) (sid : String) (h : Inv s) :
    Inv (handleRequestJoin s sid).1 := by
  have h0 : Inv { s with readyQueue := addToQueue s.readyQueue sid } := h
  unfold handleRequestJoin
  dsimp only
  split
  · exact h0
  · split
    · exact Inv_startGameSequence _ h0
    · split
      · exact Inv_assignTeam _ _ h0
      · exact h0

/-- A validated move lands on a tile that was just looked up. -/
theorem Inv_move (s : GameState) (sid : String) (tq tr : ℤ) (h : Inv s) :
    Inv (handleMove s sid tq tr).1 := by
  cases hp : findPlayer s.players sid with
  | none =>
    have e : handleMove s sid tq tr = (s, []) := by
      simp [handleMove, hp]
    rw [e]
    exact h
  | some p =>
    by_cases hguard : p.status ≠ Status.playing ∨ s.gameActive = false
    · have e : handleMove s sid tq tr = (s, []) := by
        simp only [handleMove, hp]
        rw [if_pos hguard]
      rw [e]
      exact h
    · cases htg : findTile s.map tq tr with
      | none =>
        have e : handleMove s sid tq tr = (s, []) := by
          simp only [handleMove, hp, htg]
          rw [if_neg hguard]
        rw [e]
        exact h
      | some target =>
        by_cases hnb : (tq, tr) ∈ getHexNeighbors p.q p.r
        · by_cases hok : hasFriendlyNeighbor s.map tq tr p.team = true ∨ target.owner = p.team
          · have e : handleMove s sid tq tr =
                ({ s with players := s.players.map fun pl =>
                    if pl.id == sid then { pl with q := tq, r := tr } else pl },
                 [.player_update]) := by
              simp only [handleMove, hp, htg]
              rw [if_neg hguard, if_neg (not_not_intro hnb), if_pos hok]
            rw [e]
            refine ⟨h.1, ?_⟩
            intro pl hpl
            rw [List.mem_map] at hpl
            obtain ⟨x, hx, rfl⟩ := hpl
            by_cases hc : (x.id == sid) = true
            · rw [if_pos hc]
              show (findTile s.map tq tr).isSome
              rw [htg]
              rfl
            · rw [if_neg hc]
              exact h.2 x hx
          · have e : handleMove s sid tq tr = (s, []) := by
              simp only [handleMove, hp, htg]
              rw [if_neg hguard, if_neg (not_not_intro hnb), if_neg hok]
            rw [e]
            exact h
        · have e : handleMove s sid tq tr = (s, []) := by
            simp only [handleMove, hp, htg]
            rw [if_neg hguard, if_pos hnb]
          rw [e]
          exact h

/-- Capture clicks rewrite a tile in place and never change which
coordinates exist. -/
theorem Inv_capture (s : GameState) (sid : String) (h : Inv s) :
    Inv (handleCapture s sid).1 := by
  have hmap : ∀ (g : Tile → Tile), (∀ t, (g t).q = t.q ∧ (g t).r = t.r) →
      Inv { s with map := s.map.map g } := by
    intro g hg
    constructor
    · intro q r hqr
      show (findTile (s.map.map g) q r).isSome
      rw [findTile_isSome_map hg]
      exact h.1 q r hqr
    · intro pl hpl
      show (findTile (s.map.map g) pl.q pl.r).isSome
      rw [findTile_isSome_map hg]
      exact h.2 pl hpl
  cases hp : findPlayer s.players sid with
  | none =>
    have e : handleCapture s sid = (s, []) := by
      simp [handleCapture, hp]
    rw [e]
    exact h
  | some p =>
    by_cases hguard : p.status ≠ Status.playing ∨ s.gameActive = false
    · have e : handleCapture s sid = (s, []) := by
        simp only [handleCapture, hp]
        rw [if_pos hguard]
      rw [e]
      exact h
    · cases htg : findTile s.map p.q p.r with
      | none =>
        have e : handleCapture s sid = (s, []) := by
          simp only [handleCapture, hp, htg]
          rw [if_neg hguard]
        rw [e]
        exact h
      | some tile =>
        by_cases hown : tile.owner = p.team
        · have e : handleCapture s sid = (s, []) := by
            simp only [handleCapture, hp, htg]
            rw [if_neg hguard, if_pos hown]
          rw [e]
          exact h
        · by_cases hge : ((tile.current_clicks + 1 : ℕ) : ℤ) ≥
              captureReq (getDistanceToCenter tile.q tile.r) (tile.owner != .grey)
          · have e : handleCapture s sid =
                ({ s with map := s.map.map fun t =>
                    if t.q == tile.q && t.r == tile.r then
                      { t with owner := p.team, current_clicks := 0 }
                    else t },
                 [.map_update]) := by
              simp only [handleCapture, hp, htg]
              rw [if_neg hguard, if_neg hown, if_pos hge]
            rw [e]
            exact hmap _ (fun t => by split <;> exact ⟨rfl, rfl⟩)
          · have e : handleCapture s sid =
                ({ s with map := s.map.map fun t =>
                    if t.q == tile.q && t.r == tile.r then
                      { t with current_clicks := tile.current_clicks + 1 }
                    else t },
                 [.tile_progress tile.q tile.r (tile.current_clicks + 1)
                   (captureReq (getDistanceToCenter tile.q tile.r) (tile.owner != .grey))]) := by
              simp only [handleCapture, hp, htg]
              rw [if_neg hguard, if_neg hown, if_neg hge]
            rw [e]
            exact hmap _ (fun t => by split <;> exact ⟨rfl, rfl⟩)

/-- Disconnection only removes players. -/
theorem Inv_disconnect (s : GameState) (sid : String) (h : Inv s) :
    Inv (handleDisconnect s sid).1 := by
  refine ⟨h.1, ?_⟩
  intro p hp
  have hp2 : p ∈ s.players.filter fun x => x.id != sid := hp
  exact h.2 p (List.mem_of_mem_filter hp2)

/-- Scoring ticks touch only scores and the phase flag. -/
theorem Inv_tick (s : GameState) (h : Inv s) : Inv (handleScoreTick s).1 := by
  unfold handleScoreTick
  dsimp only
  split
  · exact h
  · split
    · exact And.intro h.1 h.2
    · exact And.intro h.1 h.2

/-- The countdown reaching GO only flips flags. -/
theorem Inv_countdown (s : GameState) (h : Inv s) : Inv (handleCountdownGo s).1 := by
  unfold handleCountdownGo
  split
  · exact And.intro h.1 h.2
  · exact h

/-- The reset regenerates a full fresh map and clears the roster. -/
theorem Inv_reset (s : GameState) (_h : Inv s) : Inv (handleReset s).1 := by
  constructor
  · intro q r hqr
    exact initMapTiles_region q r hqr
  · intro p hp
    cases hp

/-- Every serialized event preserves positional well-formedness. -/
theorem Inv_step (a b : GameState) (hstep : Step a b) (h : Inv a) : Inv b := by
  cases hstep with
  | connect sid => exact Inv_connect a sid h
  | request_join sid => exact Inv_requestJoin a sid h
  | move sid tq tr => exact Inv_move a sid tq tr h
  | capture sid => exact Inv_capture a sid h
  | disconnect sid => exact Inv_disconnect a sid h
  | tick => exact Inv_tick a h
  | countdown => exact Inv_countdown a h
  | reset => exact Inv_reset a h

/-- C9.  In every reachable server state, every player (spectating or
playing) stands on the coordinates of an existing tile: players are
created at the origin tile, moves only succeed onto looked-up tiles,
and team assignment places players on their base tile — so the
unguarded tile lookup in `capture_click` never fails. -/
theorem reachable_player_on_tile (s : GameState) (h : Reachable s) :
    ∀ p ∈ s.players, ∃ t, findTile s.map p.q p.r = some t := by
  obtain ⟨rows, hsteps⟩ := h
  have hinv : Inv s := by
    induction hsteps with
    | refl => exact Inv_init rows
    | tail hab hbc ih => exact Inv_step _ _ hbc ih
  intro p hp
  exact Option.isSome_iff_exists.mp (hinv.2 p hp)

/-- Witness for C9: the state reached by booting with an empty store
and connecting one client is reachable, and its player stands on an
existing tile. -/
theorem reachable_player_on_tile_witness :
    Reachable (handleConnect (initState []) "a").1 ∧
      ∀ p ∈ (handleConnect (initState []) "a").1.players,
        ∃ t, findTile (handleConnect (initState []) "a").1.map p.q p.r = some t :=
  ⟨⟨[], Relation.ReflTransGen.single (Step.connect (initState []) "a")⟩,
   reachable_player_on_tile (handleConnect (initState []) "a").1
     ⟨[], Relation.ReflTransGen.single (Step.connect (initState []) "a")⟩⟩

end HexGame
